import Mathlib

/-!
Shallow embedding of `solve.py`, a Selenium-based automation script for a
web administration panel (wg-easy).  The browser, the filesystem and the
clock are external to the program, so they are modelled by an oracle
`World`: a list of responses consumed one per driver call, plus a map
giving, for each file name, the second (counted from the start of the
polling loop) at which that file first exists in the download directory.

Python exceptions are modelled by `Except PyExc`; `try/except Exception`
becomes `M.catchAll`, `try/except TimeoutException` becomes
`M.catchTimeout`.  Each driver call is recorded in a trace (`List Eff`),
so that theorems can speak about which page interactions an operation
performed.  Logging is recorded in the trace as well and never fails.
-/

/-- Python exception values relevant to the script. -/
inductive PyExc where
  | timeoutExc                 -- selenium TimeoutException
  | valueError                 -- e.g. unpacking `key, value = line.split('=', 1)`
  | keyError (k : String)      -- dict lookup failure, e.g. info['IP']
  | typeError                  -- using a non-element / non-string result
  | otherExc (msg : String)    -- any other runtime error from the driver
  deriving DecidableEq, Repr

/-- Values a driver call can produce: nothing, a web element (by id), a string. -/
inductive Val where
  | unit
  | elem (id : Nat)
  | str (s : String)
  deriving DecidableEq, Repr

/-- Observable effects of a run, recorded in order. -/
inductive Eff where
  | waitCall (selector : String) (timeout : Nat)  -- WebDriverWait(...).until(presence_of_element_located)
  | navigate (url : String)                       -- driver.get(url)
  | clearField (element : Nat)                    -- element.clear()
  | sendKeys (element : Nat) (text : String)      -- element.send_keys(text)
  | click (element : Nat)                         -- element.click()
  | findSub (element : Nat) (selector : String)   -- element.find_element(...)
  | getAttr (element : Nat) (attr : String)       -- element.get_attribute(...)
  | verifyDownload (filename : String)            -- the filesystem polling loop
  | driverQuit                                    -- driver.quit()
  | log (msg : String)                            -- logger output
  deriving DecidableEq, Repr

/-- The oracle: pending driver-call responses and the filesystem.
`fileAppearsAt f = some k` means file `f` first exists `k` seconds after a
polling loop for it starts; `none` means it never appears. -/
structure World where
  responses : List (Except PyExc Val)
  fileAppearsAt : String → Option Nat

abbrev Trace := List Eff

/-- The computation monad: state-passing over the oracle, Python exceptions
as `Except`, plus an accumulated effect trace. -/
def M (α : Type) : Type := World → Except PyExc α × World × Trace

def M.run (m : M α) (w : World) : Except PyExc α × World × Trace := m w

def M.mpure (a : α) : M α := fun w => (.ok a, w, [])

def M.mbind (x : M α) (f : α → M β) : M β := fun w =>
  match x w with
  | (.ok a, w', t) =>
    match f a w' with
    | (r, w'', t') => (r, w'', t ++ t')
  | (.error e, w', t) => (.error e, w', t)

instance : Monad M where
  pure := M.mpure
  bind := M.mbind

/-- Raise a Python exception. -/
def M.throwExc (e : PyExc) : M α := fun w => (.error e, w, [])

/-- `try: body except Exception as e: handler e` — catches every exception. -/
def M.catchAll (body : M α) (handler : PyExc → M α) : M α := fun w =>
  match body w with
  | (.ok a, w', t) => (.ok a, w', t)
  | (.error e, w', t) =>
    match handler e w' with
    | (r, w'', t') => (r, w'', t ++ t')

/-- `try: body except TimeoutException: handler` — catches only the timeout. -/
def M.catchTimeout (body : M α) (handler : M α) : M α := fun w =>
  match body w with
  | (.ok a, w', t) => (.ok a, w', t)
  | (.error .timeoutExc, w', t) =>
    match handler w' with
    | (r, w'', t') => (r, w'', t ++ t')
  | (.error e, w', t) => (.error e, w', t)

/-- A driver call: records the effect and consumes the next oracle response.
With no responses left the driver itself fails (an arbitrary error). -/
def prim (e : Eff) : M Val := fun w =>
  match w.responses with
  | [] => (.error (.otherExc "driver failure"), w, [e])
  | r :: rest =>
    match r with
    | .ok v => (.ok v, { w with responses := rest }, [e])
    | .error ex => (.error ex, { w with responses := rest }, [e])

/-- A driver call whose Python result is used as a web element. -/
def primElem (e : Eff) : M Nat := do
  match ← prim e with
  | .elem i => pure i
  | _ => M.throwExc .typeError

/-- A driver call whose Python result is used as a string. -/
def primStr (e : Eff) : M String := do
  match ← prim e with
  | .str s => pure s
  | _ => M.throwExc .typeError

/-- A driver call whose Python result is discarded. -/
def primUnit (e : Eff) : M Unit := do
  let _ ← prim e
  pure ()

/-- `self.logger.info(...)` / `self.logger.error(...)`: records a line, never fails. -/
def logMsg (m : String) : M Unit := fun w => (.ok (), w, [.log m])

/-- Render an exception the way `str(e)` appears in the log lines. -/
def describeExc : PyExc → String
  | .timeoutExc => "timeout"
  | .valueError => "ValueError"
  | .keyError k => "KeyError: " ++ k
  | .typeError => "TypeError"
  | .otherExc m => m

/-- The `Config` dataclass of `solve.py` with its default field values.
`download_dir` (a `Path` in Python, default `Path.cwd() / 'config_files'`)
is modelled as the string of its final component. -/
structure Config where
  url : String := ""
  password : String := ""
  download_dir : String := "config_files"
  timeout : Nat := 10          -- seconds to wait for elements
  download_wait : Nat := 15    -- seconds to wait for downloads
  deriving DecidableEq, Repr

/-- `timeout or self.config.timeout`: Python `or` treats `0` as falsy. -/
def timeoutOrDefault (timeout : Option Nat) (default : Nat) : Nat :=
  match timeout with
  | some n => if n == 0 then default else n
  | none => default

/-- Page selectors used by `solve.py` (XPath strings). -/
def markerXPath : String := "//p[contains(text(), 'Clients')]"
def passwordXPath : String := "/html/body/div/div/div/form/input[1]"
def loginButtonXPath : String := "/html/body/div/div/div/form/input[2]"
def addButtonXPath : String := "/html/body/div/div/div/div[3]/div[1]/div[2]/button"
def inputBoxXPath : String :=
  "/html/body/div/div/div/div[4]/div/div[2]/div[1]/div/div[2]/div/p/input"
def submitXPath : String := "/html/body/div/div/div/div[4]/div/div[2]/div[2]/button[1]"
/-- The f-string row selector of `add_name` and `download_configuration`. -/
def rowXPath (name : String) : String :=
  "//span[text()='" ++ name ++ "']/ancestor::div[contains(@class, 'relative')]"
def downloadLinkXPath : String := ".//a[@title='Download Configuration']"

/-- `WebAutomation._wait_for_element`: waits for presence of an element;
on `TimeoutException` logs and returns `None`; any other exception
propagates to the caller. -/
def wait_for_element (cfg : Config) (selector : String) (timeout : Option Nat) :
    M (Option Nat) :=
  M.catchTimeout
    (do
      let i ← primElem (.waitCall selector (timeoutOrDefault timeout cfg.timeout))
      pure (some i))
    (do
      logMsg ("Timeout waiting for element: " ++ selector)
      pure none)

/-- Whether the file (appearing at second `appearsAt`) exists at second `t`. -/
def fileExistsAt (appearsAt : Option Nat) (t : Nat) : Bool :=
  match appearsAt with
  | some k => k ≤ t
  | none => false

/-- The polling loop of `_verify_download`, at one-second granularity:
`while time.time() - start_time < download_wait: if exists: return True;
sleep(1)`, so existence is checked at seconds `t, t+1, ...` while the
elapsed time is below the window; `remaining` is the seconds left. -/
def verifyLoop (appearsAt : Option Nat) : Nat → Nat → Bool
  | 0, _ => false
  | remaining + 1, t =>
    if fileExistsAt appearsAt t then true else verifyLoop appearsAt remaining (t + 1)

/-- `WebAutomation._verify_download`, given the second at which the file
first appears (`none` = never). -/
def verify_download (cfg : Config) (appearsAt : Option Nat) : Bool :=
  verifyLoop appearsAt cfg.download_wait 0

/-- `_verify_download` as the script calls it: reads the file's appearance
time from the oracle's filesystem. It performs no driver call and raises
no exception. -/
def verify_download_m (cfg : Config) (filename : String) : M Bool := fun w =>
  (.ok (verify_download cfg (w.fileAppearsAt filename)), w, [.verifyDownload filename])

/-- `WebAutomation.login`: probes for the logged-in marker (2 s timeout);
if present, short-circuits; otherwise navigates to the login page, fills
the password, clicks login and re-checks the marker. Any exception is
caught at the boundary, logged, and turned into `false`. -/
def login (cfg : Config) : M Bool :=
  M.catchAll
    (do
      let marker ← wait_for_element cfg markerXPath (some 2)
      if marker.isSome then do
        logMsg "Already logged in"
        pure true
      else do
        logMsg "Logging in..."
        primUnit (.navigate cfg.url)
        let passwordField ← wait_for_element cfg passwordXPath none
        let loginButton ← wait_for_element cfg loginButtonXPath none
        match passwordField, loginButton with
        | some pf, some lb => do
          primUnit (.clearField pf)
          primUnit (.sendKeys pf cfg.password)
          primUnit (.click lb)
          let verified ← wait_for_element cfg markerXPath none
          pure verified.isSome
        | _, _ => pure false)
    (fun e => do
      logMsg ("Login failed: " ++ describeExc e)
      pure false)

/-- `WebAutomation.add_name`: login, click the add button, type the name,
submit, verify by locating the row showing the name. Any exception is
caught at the boundary, logged, and turned into `false`. -/
def add_name (cfg : Config) (name : String) : M Bool :=
  M.catchAll
    (do
      let li ← login cfg
      if !li then
        pure false
      else do
        let addButton ← wait_for_element cfg addButtonXPath none
        match addButton with
        | none => pure false
        | some ab => do
          primUnit (.click ab)
          let inputBox ← wait_for_element cfg inputBoxXPath none
          match inputBox with
          | none => pure false
          | some ib => do
            primUnit (.clearField ib)
            primUnit (.sendKeys ib name)
            let submitButton ← wait_for_element cfg submitXPath none
            match submitButton with
            | none => pure false
            | some sb => do
              primUnit (.click sb)
              let verification ← wait_for_element cfg (rowXPath name) none
              let success := verification.isSome
              logMsg ((if success then "Successfully added " else "Failed to add ") ++ name)
              pure success)
    (fun e => do
      logMsg ("Error adding " ++ name ++ ": " ++ describeExc e)
      pure false)

/-- `WebAutomation.download_configuration`: login, locate the row for the
name, read the download link's href, navigate to it, poll for the file
`<name>.conf`. Any exception is caught at the boundary, logged, and turned
into `false`. -/
def download_configuration (cfg : Config) (name : String) : M Bool :=
  M.catchAll
    (do
      let li ← login cfg
      if !li then
        pure false
      else do
        let person ← wait_for_element cfg (rowXPath name) none
        match person with
        | none => do
          logMsg ("Could not find element for " ++ name)
          pure false
        | some pe => do
          let downloadLink ← primElem (.findSub pe downloadLinkXPath)
          let downloadUrl ← primStr (.getAttr downloadLink "href")
          logMsg ("Downloading configuration for " ++ name)
          primUnit (.navigate downloadUrl)
          let ok ← verify_download_m cfg (name ++ ".conf")
          if ok then do
            logMsg ("Successfully downloaded configuration for " ++ name)
            pure true
          else do
            logMsg ("Download verification failed for " ++ name)
            pure false)
    (fun e => do
      logMsg ("Error downloading configuration for " ++ name ++ ": " ++ describeExc e)
      pure false)

/-- `operation_map[operation]` of `process_name_list`: the function applied
to each name. -/
def opStep (cfg : Config) (operation : String) : String → M Bool :=
  if operation = "add" then add_name cfg else download_configuration cfg

/-- The `for name in names` loop of `process_name_list`, threading the
success counter (the tqdm progress bar is display only and not modelled). -/
def processLoop (step : String → M Bool) : List String → Nat → M Nat
  | [], successCount => pure successCount
  | name :: rest, successCount => do
    let ok ← step name
    processLoop step rest (if ok then successCount + 1 else successCount)

/-- Python `str.capitalize` on the operation names used here
("add" → "Add", "download" → "Download"). -/
def pyCapitalize (s : String) : String := s.capitalize

/-- `WebAutomation.process_name_list`: validates the operation, runs the
per-name loop, and logs "<Op> completed: X/N successful". -/
def process_name_list (cfg : Config) (names : List String) (operation : String) : M Unit :=
  if operation = "add" ∨ operation = "download" then do
    let successCount ← processLoop (opStep cfg operation) names 0
    logMsg (pyCapitalize operation ++ " completed: " ++ toString successCount ++ "/" ++
      toString names.length ++ " successful")
  else
    logMsg ("Invalid operation: " ++ operation)

/-- `WebAutomation.close`: best-effort `driver.quit()`, swallowing errors. -/
def close : M Unit :=
  M.catchAll (primUnit .driverQuit)
    (fun e => logMsg ("Error closing driver: " ++ describeExc e))

/-- The characters Python `str.strip()` removes. -/
def isPySpace (c : Char) : Bool :=
  c == ' ' || c == '\t' || c == '\n' || c == '\r' || c == '\x0b' || c == '\x0c'

/-- Python `str.strip()`: drop leading and trailing whitespace. -/
def pyStrip (s : String) : String :=
  ⟨((s.data.dropWhile isPySpace).reverse.dropWhile isPySpace).reverse⟩

def startsAux : List Char → List Char → Bool
  | _, [] => true
  | [], _ :: _ => false
  | c :: cs, d :: ds => c == d && startsAux cs ds

/-- Python `s.startswith(p)`. -/
def pyStartsWith (s p : String) : Bool := startsAux s.data p.data

def splitEqAux : List Char → List Char → List String
  | acc, [] => [⟨acc.reverse⟩]
  | acc, c :: rest =>
    if c == '=' then [⟨acc.reverse⟩, ⟨rest⟩] else splitEqAux (c :: acc) rest

/-- Python `s.split('=', 1)`: one or two pieces, splitting at the first `=`. -/
def pySplitEqOnce (s : String) : List String := splitEqAux [] s.data

/-- `read_names_from_file`: the file's lines (without newlines), or `none`
when opening/reading raises. The comprehension
`[line.strip() for line in file if line.strip()]` keeps every line that is
non-blank after stripping; an exception is caught, logged at module level,
and the empty list is returned. -/
def read_names_from_file (contents : Option (List String)) : List String :=
  match contents with
  | some lines =>
    lines.filterMap (fun line =>
      let s := pyStrip line
      if s = "" then none else some s)
  | none => []

/-- Python dict assignment `info[key] = value`: overwrite an existing key in
place, else append (preserving insertion order). -/
def dictInsert (info : List (String × String)) (key value : String) :
    List (String × String) :=
  match info with
  | [] => [(key, value)]
  | kv :: rest =>
    if kv.1 = key then (key, value) :: rest else kv :: dictInsert rest key value

/-- Python dict lookup `info[key]`: `KeyError` when absent. -/
def dictGet (info : List (String × String)) (key : String) : Except PyExc String :=
  match info.find? (fun kv => kv.1 = key) with
  | some kv => .ok kv.2
  | none => .error (.keyError key)

/-- The body of `read_info`'s `for line in file:` loop: strip the line,
skip it when blank or a `#`-comment, otherwise unpack
`key, value = line.split('=', 1)` (a `ValueError` when there is no `=`)
and assign `info[key.strip()] = value.strip()`. -/
def read_info_line (info : List (String × String)) (rawLine : String) :
    Except PyExc (List (String × String)) :=
  let line := pyStrip rawLine
  if (line != "") && !(pyStartsWith line "#") then
    match pySplitEqOnce line with
    | [key, value] => .ok (dictInsert info (pyStrip key) (pyStrip value))
    | _ => .error .valueError
  else
    .ok info

/-- `read_info`: parse `key=value` lines, skipping blank lines and
`#`-comments. A kept line without `=` raises `ValueError`, so nothing is
returned. -/
def read_info (lines : List String) : Except PyExc (List (String × String)) :=
  lines.foldlM read_info_line []

/-- The parsed CLI mode of `main`. -/
inductive Mode where
  | addList (filename : String)
  | addOne (name : String)
  | downloadList (filename : String)
  | downloadOne (name : String)
  | noMode
  deriving DecidableEq, Repr

/-- The startup part of `main`: `read_info('info.txt')`, then
`info['IP']` and `info['password']` (a `KeyError` here propagates and
crashes the process), then `Config(url=..., password=...)` with the
remaining fields at their dataclass defaults. -/
def mainStartup (infoLines : List String) : Except PyExc Config :=
  match read_info infoLines with
  | .error e => .error e
  | .ok info =>
    match dictGet info "IP" with
    | .error e => .error e
    | .ok ip =>
      match dictGet info "password" with
      | .error e => .error e
      | .ok password =>
        .ok { url := "http://" ++ ip ++ ":51821/", password := password }

/-- The dispatch inside `main`'s `try:` block. `nameFiles` gives each name
file's lines (`none` = reading raises). -/
def mainDispatch (cfg : Config) (mode : Mode) (nameFiles : String → Option (List String)) :
    M Unit :=
  match mode with
  | .addList filename => do
    let names := read_names_from_file (nameFiles filename)
    if names = [] then
      logMsg "No valid names found in file"
    else
      process_name_list cfg names "add"
  | .downloadList filename => do
    let names := read_names_from_file (nameFiles filename)
    if names = [] then
      logMsg "No valid names found in file"
    else
      process_name_list cfg names "download"
  | .addOne name => do
    let _ ← add_name cfg name
    pure ()
  | .downloadOne name => do
    let _ ← download_configuration cfg name
    pure ()
  | .noMode => logMsg "help"

/-- Python `try: body finally: fin`: `fin` always runs; an exception from
`body` is re-raised afterwards (superseded by one from `fin`). -/
def pyFinally (body fin : M Unit) : M Unit := fun w =>
  match body w with
  | (.ok _, w', t) =>
    match fin w' with
    | (r, w'', t') => (r, w'', t ++ t')
  | (.error e, w', t) =>
    match fin w' with
    | (.ok _, w'', t') => (.error e, w'', t ++ t')
    | (.error e2, w'', t') => (.error e2, w'', t ++ t')

/-- The part of `main` after the automation object exists: the `try:`
dispatch with the unconditional `automation.close()` in `finally:`. -/
def main_run (cfg : Config) (mode : Mode) (nameFiles : String → Option (List String)) :
    M Unit :=
  pyFinally (mainDispatch cfg mode nameFiles) close

/-! ## Verification helpers -/

/-- `m` never propagates an exception: every run produces an `ok` result. -/
def M.noRaise {α : Type} (m : M α) : Prop :=
  ∀ w, ∃ a w' t, m w = (.ok a, w', t)

theorem M.catchAll_noRaise {α : Type} (body : M α) (handler : PyExc → M α)
    (h : ∀ e, M.noRaise (handler e)) : M.noRaise (M.catchAll body handler) := by
  intro w
  rcases hb : body w with ⟨r, w', t⟩
  cases r with
  | ok a => exact ⟨a, w', t, by simp [M.catchAll, hb]⟩
  | error e =>
    obtain ⟨a, w'', t', hh⟩ := h e w'
    exact ⟨a, w'', t ++ t', by simp [M.catchAll, hb, hh]⟩

theorem login_noRaise (cfg : Config) : M.noRaise (login cfg) := by
  unfold login
  apply M.catchAll_noRaise
  intro e w
  exact ⟨false, w, [.log ("Login failed: " ++ describeExc e)], rfl⟩

theorem add_name_noRaise (cfg : Config) (name : String) :
    M.noRaise (add_name cfg name) := by
  unfold add_name
  apply M.catchAll_noRaise
  intro e w
  exact ⟨false, w, [.log ("Error adding " ++ name ++ ": " ++ describeExc e)], rfl⟩

theorem download_configuration_noRaise (cfg : Config) (name : String) :
    M.noRaise (download_configuration cfg name) := by
  unfold download_configuration
  apply M.catchAll_noRaise
  intro e w
  exact ⟨false, w,
    [.log ("Error downloading configuration for " ++ name ++ ": " ++ describeExc e)], rfl⟩

theorem close_noRaise : M.noRaise close := by
  unfold close
  apply M.catchAll_noRaise
  intro e w
  exact ⟨(), w, [.log ("Error closing driver: " ++ describeExc e)], rfl⟩

/-- No filesystem activity: no download ever appears. -/
def noFiles : String → Option Nat := fun _ => none

/-- An oracle on which the login marker is present but the next element
probe (the add button, or the row for the name) times out. -/
def timeoutAfterLoginWorld : World :=
  { responses := [.ok (.elem 1), .error .timeoutExc], fileAppearsAt := noFiles }

/-- C1: on every oracle behaviour, `add_name` and `download_configuration`
return an `ok` boolean — every exception raised in their bodies is caught
at the operation boundary and converted into a `false` return — and on a
run where the required page element times out they return `ok false`. -/
theorem add_and_download_never_raise :
    (∀ (cfg : Config) (name : String) (w : World),
      ∃ b w' t, add_name cfg name w = (Except.ok b, w', t)) ∧
    (∀ (cfg : Config) (name : String) (w : World),
      ∃ b w' t, download_configuration cfg name w = (Except.ok b, w', t)) ∧
    (add_name {} "alice" timeoutAfterLoginWorld).1 = Except.ok false ∧
    (download_configuration {} "alice" timeoutAfterLoginWorld).1 = Except.ok false :=
  ⟨fun cfg name w => add_name_noRaise cfg name w,
   fun cfg name w => download_configuration_noRaise cfg name w,
   rfl, rfl⟩

theorem verifyLoop_succ_true_iff (appearsAt : Option Nat) :
    ∀ (r t : Nat),
      verifyLoop appearsAt (r + 1) t = true ↔
        ∃ k, appearsAt = some k ∧ k < t + (r + 1) := by
  intro r
  induction r with
  | zero =>
    intro t
    cases appearsAt with
    | none => simp [verifyLoop, fileExistsAt]
    | some k =>
      simp [verifyLoop, fileExistsAt]
      omega
  | succ r ih =>
    intro t
    have step : verifyLoop appearsAt (r + 1 + 1) t =
        if fileExistsAt appearsAt t then true
        else verifyLoop appearsAt (r + 1) (t + 1) := rfl
    rw [step]
    by_cases hf : fileExistsAt appearsAt t = true
    · rw [if_pos hf]
      cases appearsAt with
      | none => simp [fileExistsAt] at hf
      | some k =>
        have hk : k ≤ t := by simpa [fileExistsAt] using hf
        exact iff_of_true rfl ⟨k, rfl, by omega⟩
    · rw [if_neg (by simpa using hf)]
      rw [ih (t + 1)]
      constructor
      · rintro ⟨k, hk, hlt⟩
        exact ⟨k, hk, by omega⟩
      · rintro ⟨k, hk, hlt⟩
        exact ⟨k, hk, by omega⟩

/-- C2: `_verify_download` (polling once per second for
`download_wait` seconds) returns `true` exactly when the file appears
within the wait window — at some whole second `k < download_wait` — and
`false` whenever the file never appears in the window. -/
theorem verify_download_true_iff :
    ∀ (cfg : Config) (appearsAt : Option Nat),
      verify_download cfg appearsAt = true ↔
        ∃ k, appearsAt = some k ∧ k < cfg.download_wait := by
  intro cfg a
  unfold verify_download
  cases hdw : cfg.download_wait with
  | zero => simp [verifyLoop]
  | succ r => simpa using verifyLoop_succ_true_iff a r 0

/-- C3 counterexample: `read_names_from_file` does NOT exclude `#`-comment
lines — a comment line is returned like any other non-blank line (the
claim would require the output `["alice"]` here). -/
theorem read_names_keeps_comment_lines :
    read_names_from_file (some ["# comment", "alice"]) = ["# comment", "alice"] := by
  decide

/-- C3 amended: name-list loading returns one entry per non-blank line of
the file — comment lines are NOT excluded — in file order, each entry
stripped of surrounding whitespace; input "a\n\nb \n" yields exactly
["a", "b"], and a read failure yields []. -/
theorem read_names_spec :
    (∀ lines, read_names_from_file (some lines) =
      (lines.map pyStrip).filter (fun s => s ≠ "")) ∧
    read_names_from_file (some ["a", "", "b "]) = ["a", "b"] ∧
    read_names_from_file none = ([] : List String) := by
  refine ⟨?_, by decide, rfl⟩
  intro lines
  induction lines with
  | nil => rfl
  | cons l ls ih =>
    simp only [read_names_from_file] at ih
    simp only [read_names_from_file, List.filterMap_cons, List.map_cons, List.filter_cons]
    by_cases h : pyStrip l = ""
    · simp [h, ih]
    · simp [h, ih]

/-- C4 counterexample: `timeout=99` and `download_wait=99` lines in the
config file are ignored — the constructed `Config` keeps the dataclass
defaults (timeout 10, download_wait 15, download directory
`config_files`), so not every configuration field is loaded from the
file. -/
theorem config_not_all_fields_loaded :
    mainStartup ["IP=1.2.3.4", "password=x", "timeout=99", "download_wait=99"] =
      Except.ok { url := "http://1.2.3.4:51821/", password := "x",
                  download_dir := "config_files", timeout := 10,
                  download_wait := 15 } := rfl

/-- C4 amended: only the target URL (built from key `IP`) and the password
are loaded from the key=value config file at startup; the download
directory and both timeout values always keep the dataclass defaults.
(The embedding passes `Config` immutably, matching the script, which never
reassigns a config field after construction.) -/
theorem config_loading_spec :
    ∀ (infoLines : List String) (cfg : Config),
      mainStartup infoLines = Except.ok cfg →
      cfg.download_dir = "config_files" ∧ cfg.timeout = 10 ∧ cfg.download_wait = 15 ∧
      ∃ info ip pw,
        read_info infoLines = Except.ok info ∧
        dictGet info "IP" = Except.ok ip ∧
        dictGet info "password" = Except.ok pw ∧
        cfg.url = "http://" ++ ip ++ ":51821/" ∧ cfg.password = pw := by
  intro infoLines cfg h
  unfold mainStartup at h
  split at h
  · exact absurd h (by simp)
  · rename_i info hinfo
    split at h
    · exact absurd h (by simp)
    · rename_i ip hip
      split at h
      · exact absurd h (by simp)
      · rename_i pw hpw
        injection h with h
        subst h
        exact ⟨rfl, rfl, rfl, info, ip, pw, hinfo, hip, hpw, rfl, rfl⟩

/-- Witness for the C4 amended theorem at a concrete config file. -/
theorem config_loading_spec_witness :
    mainStartup ["IP=10.0.0.7", "password=secret"] =
      Except.ok { url := "http://10.0.0.7:51821/", password := "secret" } ∧
    (({ url := "http://10.0.0.7:51821/", password := "secret" } : Config).download_dir
        = "config_files" ∧
      ({ url := "http://10.0.0.7:51821/", password := "secret" } : Config).timeout = 10 ∧
      ({ url := "http://10.0.0.7:51821/", password := "secret" } : Config).download_wait
        = 15 ∧
      ∃ info ip pw,
        read_info ["IP=10.0.0.7", "password=secret"] = Except.ok info ∧
        dictGet info "IP" = Except.ok ip ∧
        dictGet info "password" = Except.ok pw ∧
        ({ url := "http://10.0.0.7:51821/", password := "secret" } : Config).url
          = "http://" ++ ip ++ ":51821/" ∧
        ({ url := "http://10.0.0.7:51821/", password := "secret" } : Config).password
          = pw) :=
  ⟨rfl, config_loading_spec ["IP=10.0.0.7", "password=secret"] _ rfl⟩

/-- The per-name boolean outcomes of running `step` over `names`
sequentially from world `w` (cut short at a step that propagates an
exception — which never happens for the two batch operations). -/
def stepResults (step : String → M Bool) : List String → World → List Bool
  | [], _ => []
  | n :: rest, w =>
    match step n w with
    | (.ok b, w', _) => b :: stepResults step rest w'
    | (.error _, _, _) => []

/-- The world after running `step` over `names` sequentially. -/
def stepWorld (step : String → M Bool) : List String → World → World
  | [], w => w
  | n :: rest, w =>
    match step n w with
    | (.ok _, w', _) => stepWorld step rest w'
    | (.error _, w', _) => w'

/-- The concatenated per-name traces of running `step` over `names`. -/
def stepTraces (step : String → M Bool) : List String → World → Trace
  | [], _ => []
  | n :: rest, w =>
    match step n w with
    | (.ok _, w', t) => t ++ stepTraces step rest w'
    | (.error _, _, t) => t

theorem M.mbind_eq {α β : Type} (x : M α) (f : α → M β) (w : World) (a : α)
    (w' : World) (t : Trace) (hx : x w = (.ok a, w', t)) :
    M.mbind x f w = ((f a w').1, (f a w').2.1, t ++ (f a w').2.2) := by
  show (match x w with
    | (.ok a, w', t) =>
      match f a w' with
      | (r, w'', t') => (r, w'', t ++ t')
    | (.error e, w', t) => (.error e, w', t)) = _
  rw [hx]

theorem M.mbind_eq_error {α β : Type} (x : M α) (f : α → M β) (w : World) (e : PyExc)
    (w' : World) (t : Trace) (hx : x w = (.error e, w', t)) :
    M.mbind x f w = (.error e, w', t) := by
  show (match x w with
    | (.ok a, w', t) =>
      match f a w' with
      | (r, w'', t') => (r, w'', t ++ t')
    | (.error e, w', t) => (.error e, w', t)) = _
  rw [hx]

theorem processLoop_spec (step : String → M Bool) (hstep : ∀ n, M.noRaise (step n)) :
    ∀ (names : List String) (acc : Nat) (w : World),
      processLoop step names acc w =
        (.ok (acc + (stepResults step names w).count true),
         stepWorld step names w, stepTraces step names w) ∧
      (stepResults step names w).length = names.length := by
  intro names
  induction names with
  | nil => intro acc w; exact ⟨rfl, rfl⟩
  | cons n rest ih =>
    intro acc w
    obtain ⟨b, w', t, hb⟩ := hstep n w
    have hres : stepResults step (n :: rest) w = b :: stepResults step rest w' := by
      simp [stepResults, hb]
    have hwld : stepWorld step (n :: rest) w = stepWorld step rest w' := by
      simp [stepWorld, hb]
    have htr : stepTraces step (n :: rest) w = t ++ stepTraces step rest w' := by
      simp [stepTraces, hb]
    have hrest := ih (if b then acc + 1 else acc) w'
    have hcount : (if b then acc + 1 else acc) + (stepResults step rest w').count true
        = acc + (b :: stepResults step rest w').count true := by
      cases b <;> (simp [List.count_cons]; try omega)
    constructor
    · have hloop : processLoop step (n :: rest) acc w =
          M.mbind (step n) (fun ok => processLoop step rest (if ok then acc + 1 else acc)) w :=
        rfl
      rw [hloop, M.mbind_eq (step n) _ w b w' t hb, hrest.1, hres, hwld, htr, ← hcount]
    · rw [hres]
      simpa using hrest.2

/-- The world with no pending driver responses and no downloads. -/
def emptyWorld : World := { responses := [], fileAppearsAt := noFiles }

/-- C5: for either batch operation, `process_name_list` applies the
operation to each name sequentially in list order (the run's trace is the
concatenation of the per-name traces, in order), a `false` return does not
stop processing (there is exactly one boolean outcome per list element),
the success counter counts exactly the names whose operation returned
`true`, and completion is logged as "X/N successful" with N the list
length. -/
theorem process_name_list_sequential :
    ∀ (cfg : Config) (names : List String) (operation : String) (w : World),
      operation = "add" ∨ operation = "download" →
      (stepResults (opStep cfg operation) names w).length = names.length ∧
      process_name_list cfg names operation w =
        (.ok (), stepWorld (opStep cfg operation) names w,
         stepTraces (opStep cfg operation) names w ++
           [.log (pyCapitalize operation ++ " completed: " ++
             toString ((stepResults (opStep cfg operation) names w).count true) ++ "/" ++
             toString names.length ++ " successful")]) := by
  intro cfg names operation w hop
  have hstep : ∀ n, M.noRaise (opStep cfg operation n) := by
    intro n
    unfold opStep
    by_cases h : operation = "add"
    · rw [if_pos h]; exact add_name_noRaise cfg n
    · rw [if_neg h]; exact download_configuration_noRaise cfg n
  have hloop := processLoop_spec (opStep cfg operation) hstep names 0 w
  refine ⟨hloop.2, ?_⟩
  unfold process_name_list
  rw [if_pos hop]
  have hbody : (do
      let successCount ← processLoop (opStep cfg operation) names 0
      logMsg (pyCapitalize operation ++ " completed: " ++ toString successCount ++ "/" ++
        toString names.length ++ " successful") : M Unit) w =
      M.mbind (processLoop (opStep cfg operation) names 0)
        (fun successCount => logMsg (pyCapitalize operation ++ " completed: " ++
          toString successCount ++ "/" ++ toString names.length ++ " successful")) w := rfl
  rw [hbody, M.mbind_eq _ _ w _ _ _ hloop.1]
  simp [logMsg]

/-- Witness for C5 at a concrete input. -/
theorem process_name_list_sequential_witness :
    ("add" = "add" ∨ "add" = "download") ∧
    ((stepResults (opStep {} "add") [] emptyWorld).length = ([] : List String).length ∧
     process_name_list {} [] "add" emptyWorld =
       (.ok (), stepWorld (opStep {} "add") [] emptyWorld,
        stepTraces (opStep {} "add") [] emptyWorld ++
          [.log (pyCapitalize "add" ++ " completed: " ++
            toString ((stepResults (opStep {} "add") [] emptyWorld).count true) ++ "/" ++
            toString ([] : List String).length ++ " successful")])) :=
  ⟨Or.inl rfl, process_name_list_sequential {} [] "add" emptyWorld (Or.inl rfl)⟩

theorem processLoop_count_le (step : String → M Bool) :
    ∀ (names : List String) (acc : Nat) (w : World) (k : Nat) (w' : World) (t : Trace),
      processLoop step names acc w = (.ok k, w', t) → k ≤ acc + names.length := by
  intro names
  induction names with
  | nil =>
    intro acc w k w' t h
    have : Except.ok acc = (Except.ok k : Except PyExc Nat) := congrArg Prod.fst h
    injection this with hk
    omega
  | cons n rest ih =>
    intro acc w k w' t h
    rcases hb : step n w with ⟨r, wn, tn⟩
    cases r with
    | ok b =>
      have hup : processLoop step (n :: rest) acc w =
          M.mbind (step n) (fun ok => processLoop step rest (if ok then acc + 1 else acc)) w :=
        rfl
      rw [hup, M.mbind_eq (step n) _ w b wn tn hb] at h
      rcases hrest : processLoop step rest (if b then acc + 1 else acc) wn with ⟨r2, w2, t2⟩
      rw [hrest] at h
      cases r2 with
      | ok k2 =>
        have hk : k2 = k := by
          have := congrArg Prod.fst h
          simpa using this
        have := ih (if b then acc + 1 else acc) wn k w2 t2 (by rw [hrest, hk])
        cases b <;> (simp at this ⊢; try omega)
      | error e =>
        have := congrArg Prod.fst h
        simp at this
    | error e =>
      have hup : processLoop step (n :: rest) acc w =
          M.mbind (step n) (fun ok => processLoop step rest (if ok then acc + 1 else acc)) w :=
        rfl
      rw [hup, M.mbind_eq_error (step n) _ w e wn tn hb] at h
      have := congrArg Prod.fst h
      simp at this

/-- C6: for every non-empty name list, the final success count of the
batch loop of `process_name_list` is at most the length of the list. -/
theorem batch_success_count_le_length :
    ∀ (cfg : Config) (operation : String) (names : List String) (w : World)
      (k : Nat) (w' : World) (t : Trace),
      names ≠ [] →
      processLoop (opStep cfg operation) names 0 w = (Except.ok k, w', t) →
      k ≤ names.length := by
  intro cfg operation names w k w' t hne h
  have := processLoop_count_le (opStep cfg operation) names 0 w k w' t h
  omega

/-- Witness for C6 at a concrete input: one name, a driver that fails
every call, so the loop returns success count 0 ≤ 1. -/
theorem batch_success_count_le_length_witness :
    (["a"] ≠ ([] : List String)) ∧ 0 ≤ (["a"] : List String).length :=
  ⟨by decide,
   batch_success_count_le_length {} "add" ["a"] emptyWorld 0 emptyWorld
     [.waitCall markerXPath 2, .log "Login failed: driver failure"]
     (by decide) rfl⟩

/-- C7: when the logged-in marker element is already present (the first
driver response yields an element for the 2-second marker probe), `login`
returns `true` having performed only that probe and the "Already logged
in" log line: in particular it never navigates to the login page and never
sends the password (no `navigate`, no `sendKeys`, no `clearField` effect
in the run's trace). -/
theorem login_short_circuits_when_authenticated :
    ∀ (cfg : Config) (i : Nat) (rest : List (Except PyExc Val))
      (fs : String → Option Nat),
      login cfg { responses := Except.ok (Val.elem i) :: rest, fileAppearsAt := fs } =
        (.ok true, { responses := rest, fileAppearsAt := fs },
         [.waitCall markerXPath 2, .log "Already logged in"]) ∧
      ∀ e ∈ (login cfg { responses := Except.ok (Val.elem i) :: rest, fileAppearsAt := fs }).2.2,
        (∀ u, e ≠ .navigate u) ∧ (∀ p s, e ≠ .sendKeys p s) ∧ (∀ p, e ≠ .clearField p) := by
  intro cfg i rest fs
  have hrun : login cfg { responses := Except.ok (Val.elem i) :: rest, fileAppearsAt := fs } =
      (.ok true, { responses := rest, fileAppearsAt := fs },
       [.waitCall markerXPath 2, .log "Already logged in"]) := rfl
  refine ⟨hrun, ?_⟩
  rw [hrun]
  intro e he
  simp only [List.mem_cons, List.mem_singleton] at he
  rcases he with h | h | h
  · subst h
    exact ⟨fun u => by simp, fun p s => by simp, fun p => by simp⟩
  · subst h
    exact ⟨fun u => by simp, fun p s => by simp, fun p => by simp⟩
  · exact absurd h (by simp)

theorem M.mbind_noRaise {α β : Type} (x : M α) (f : α → M β)
    (hx : M.noRaise x) (hf : ∀ a, M.noRaise (f a)) : M.noRaise (M.mbind x f) := by
  intro w
  obtain ⟨a, w', t, h1⟩ := hx w
  obtain ⟨b, w'', t', h2⟩ := hf a w'
  refine ⟨b, w'', t ++ t', ?_⟩
  rw [M.mbind_eq x f w a w' t h1, h2]

theorem opStep_noRaise (cfg : Config) (operation : String) (n : String) :
    M.noRaise (opStep cfg operation n) := by
  unfold opStep
  by_cases h : operation = "add"
  · rw [if_pos h]; exact add_name_noRaise cfg n
  · rw [if_neg h]; exact download_configuration_noRaise cfg n

theorem process_name_list_noRaise (cfg : Config) (names : List String)
    (operation : String) : M.noRaise (process_name_list cfg names operation) := by
  unfold process_name_list
  by_cases hop : operation = "add" ∨ operation = "download"
  · rw [if_pos hop]
    show M.noRaise (M.mbind (processLoop (opStep cfg operation) names 0) _)
    apply M.mbind_noRaise
    · intro w
      exact ⟨_, _, _, (processLoop_spec _ (opStep_noRaise cfg operation) names 0 w).1⟩
    · intro a w
      exact ⟨(), w, _, rfl⟩
  · rw [if_neg hop]
    intro w
    exact ⟨(), w, _, rfl⟩

theorem mainDispatch_noRaise (cfg : Config) (mode : Mode)
    (nameFiles : String → Option (List String)) :
    M.noRaise (mainDispatch cfg mode nameFiles) := by
  cases mode with
  | addList fn =>
    by_cases h : read_names_from_file (nameFiles fn) = []
    · intro w
      exact ⟨(), w, [.log "No valid names found in file"], by simp [mainDispatch, h, logMsg]⟩
    · intro w
      obtain ⟨a, w', t, hh⟩ :=
        process_name_list_noRaise cfg (read_names_from_file (nameFiles fn)) "add" w
      exact ⟨a, w', t, by simp [mainDispatch, h, hh]⟩
  | downloadList fn =>
    by_cases h : read_names_from_file (nameFiles fn) = []
    · intro w
      exact ⟨(), w, [.log "No valid names found in file"], by simp [mainDispatch, h, logMsg]⟩
    · intro w
      obtain ⟨a, w', t, hh⟩ :=
        process_name_list_noRaise cfg (read_names_from_file (nameFiles fn)) "download" w
      exact ⟨a, w', t, by simp [mainDispatch, h, hh]⟩
  | addOne name =>
    show M.noRaise (M.mbind (add_name cfg name) (fun x => M.mpure ()))
    exact M.mbind_noRaise _ _ (add_name_noRaise cfg name) (fun a w => ⟨(), w, [], rfl⟩)
  | downloadOne name =>
    show M.noRaise (M.mbind (download_configuration cfg name) (fun x => M.mpure ()))
    exact M.mbind_noRaise _ _ (download_configuration_noRaise cfg name)
      (fun a w => ⟨(), w, [], rfl⟩)
  | noMode =>
    intro w
    exact ⟨(), w, _, rfl⟩

theorem pyFinally_noRaise (body fin : M Unit) (hb : M.noRaise body)
    (hf : M.noRaise fin) : M.noRaise (pyFinally body fin) := by
  intro w
  obtain ⟨a, w', t, h1⟩ := hb w
  obtain ⟨a2, w'', t', h2⟩ := hf w'
  exact ⟨(), w'', t ++ t', by simp [pyFinally, h1, h2]⟩

/-- C8: once the browser phase of `main` begins, no exception escapes: for
every CLI mode and every driver/filesystem behaviour, the `try/finally`
body of `main` (dispatch plus the unconditional close) finishes with an
`ok` result — every error inside is logged and converted to a `false`
return or an aborted step. The only uncaught failure is at startup:
`read_info`/`info['IP']` on a config file missing a required key raises
(here, `KeyError: IP`). -/
theorem no_crash_after_startup :
    (∀ (cfg : Config) (mode : Mode) (nameFiles : String → Option (List String))
      (w : World),
      ∃ w' t, main_run cfg mode nameFiles w = (Except.ok (), w', t)) ∧
    mainStartup ["password=x"] = Except.error (PyExc.keyError "IP") := by
  constructor
  · intro cfg mode nameFiles w
    obtain ⟨a, w', t, h⟩ :=
      pyFinally_noRaise _ _ (mainDispatch_noRaise cfg mode nameFiles) close_noRaise w
    exact ⟨w', t, by simpa using h⟩
  · rfl

/-- Effects that interact with the page or filesystem (anything except
logging and the final `driver.quit()` of cleanup). -/
def Eff.isUiAction : Eff → Bool
  | .log _ => false
  | .driverQuit => false
  | _ => true

theorem close_run (w : World) :
    ∃ w' t, close w = (Except.ok (), w', t) ∧ ∀ e ∈ t, e.isUiAction = false := by
  rcases w with ⟨rs, fs⟩
  cases rs with
  | nil =>
    refine ⟨⟨[], fs⟩,
      [.driverQuit, .log ("Error closing driver: " ++ describeExc (.otherExc "driver failure"))],
      rfl, ?_⟩
    intro e he
    simp only [List.mem_cons, List.not_mem_nil, or_false] at he
    rcases he with rfl | rfl <;> rfl
  | cons r rest =>
    cases r with
    | ok v =>
      refine ⟨⟨rest, fs⟩, [.driverQuit], rfl, ?_⟩
      intro e he
      simp only [List.mem_singleton] at he
      subst he
      rfl
    | error ex =>
      refine ⟨⟨rest, fs⟩,
        [.driverQuit, .log ("Error closing driver: " ++ describeExc ex)], rfl, ?_⟩
      intro e he
      simp only [List.mem_cons, List.not_mem_nil, or_false] at he
      rcases he with rfl | rfl <;> rfl

/-- C9: an empty name list is fatal to the batch step but not to the
process: for `add-list`/`download-list`, when the name-list file is
unreadable or yields no (non-blank) names, `main`'s dispatch logs "No
valid names found in file" and aborts the step — the run still ends with
an `ok` result, and the trace contains no page interaction at all (only
log lines and the cleanup `driver.quit()`), so no add or download
operation was invoked. -/
theorem empty_name_list_aborts_step :
    ∀ (cfg : Config) (filename : String) (nameFiles : String → Option (List String))
      (w : World) (mode : Mode),
      (mode = .addList filename ∨ mode = .downloadList filename) →
      read_names_from_file (nameFiles filename) = [] →
      ∃ w' t, main_run cfg mode nameFiles w = (Except.ok (), w', t) ∧
        Eff.log "No valid names found in file" ∈ t ∧
        ∀ e ∈ t, e.isUiAction = false := by
  intro cfg filename nameFiles w mode hmode hempty
  obtain ⟨wc, tc, hc, hcui⟩ := close_run w
  have hdisp : mainDispatch cfg mode nameFiles w =
      (.ok (), w, [.log "No valid names found in file"]) := by
    rcases hmode with rfl | rfl <;> simp [mainDispatch, hempty, logMsg]
  refine ⟨wc, [.log "No valid names found in file"] ++ tc, ?_, ?_, ?_⟩
  · simp [main_run, pyFinally, hdisp, hc]
  · simp
  · intro e he
    rcases List.mem_append.mp he with h | h
    · rw [List.mem_singleton.mp h]
      rfl
    · exact hcui e h

/-- Witness for C9: a missing name-list file (reading raises, so the
loader returns the empty list) on the `add-list` path. -/
theorem empty_name_list_aborts_step_witness :
    (Mode.addList "names.txt" = Mode.addList "names.txt" ∨
      Mode.addList "names.txt" = Mode.downloadList "names.txt") ∧
    read_names_from_file ((fun _ => none : String → Option (List String)) "names.txt")
      = [] ∧
    ∃ w' t, main_run {} (Mode.addList "names.txt") (fun _ => none) emptyWorld =
        (Except.ok (), w', t) ∧
      Eff.log "No valid names found in file" ∈ t ∧
      ∀ e ∈ t, e.isUiAction = false :=
  ⟨Or.inl rfl, rfl,
   empty_name_list_aborts_step {} "names.txt" (fun _ => none) emptyWorld
     (Mode.addList "names.txt") (Or.inl rfl) rfl⟩

/-- A config-file line that, after stripping, is kept (non-blank, not a
comment) but has no `=`: `split('=', 1)` yields a single piece. -/
def badLine (l : String) : Prop :=
  pyStrip l ≠ "" ∧ pyStartsWith (pyStrip l) "#" = false ∧
    (pySplitEqOnce (pyStrip l)).length = 1

theorem splitEqAux_length (cs : List Char) :
    ∀ acc, (splitEqAux acc cs).length = 1 ∨ (splitEqAux acc cs).length = 2 := by
  induction cs with
  | nil => intro acc; left; rfl
  | cons c rest ih =>
    intro acc
    by_cases h : (c == '=') = true
    · right
      simp only [splitEqAux, if_pos h]
      rfl
    · simp only [splitEqAux, if_neg h]
      exact ih (c :: acc)

theorem read_info_line_bad (l : String) (hb : badLine l)
    (info : List (String × String)) :
    read_info_line info l = Except.error PyExc.valueError := by
  obtain ⟨h1, h2, h3⟩ := hb
  unfold read_info_line
  have hcond : ((pyStrip l != "") && !(pyStartsWith (pyStrip l) "#")) = true := by
    simp [h2, bne_iff_ne]
    exact h1
  rw [if_pos hcond]
  obtain ⟨x, hx⟩ : ∃ x, pySplitEqOnce (pyStrip l) = [x] := by
    cases hsp : pySplitEqOnce (pyStrip l) with
    | nil => rw [hsp] at h3; simp at h3
    | cons a rest =>
      cases rest with
      | nil => exact ⟨a, rfl⟩
      | cons b r2 => rw [hsp] at h3; simp at h3
  rw [hx]

theorem read_info_line_good (l : String) (hb : ¬ badLine l)
    (info : List (String × String)) :
    ∃ info', read_info_line info l = Except.ok info' := by
  unfold read_info_line
  by_cases hc : ((pyStrip l != "") && !(pyStartsWith (pyStrip l) "#")) = true
  · have hc' := hc
    simp only [Bool.and_eq_true, bne_iff_ne, ne_eq, Bool.not_eq_true',
      Bool.not_eq_eq_eq_not, Bool.not_true] at hc'
    cases hsp : pySplitEqOnce (pyStrip l) with
    | nil =>
      have := splitEqAux_length (pyStrip l).data []
      rw [show splitEqAux [] (pyStrip l).data = pySplitEqOnce (pyStrip l) from rfl,
        hsp] at this
      simp at this
    | cons a rest =>
      cases rest with
      | nil =>
        exfalso
        exact hb ⟨hc'.1, hc'.2, by rw [hsp]; rfl⟩
      | cons b r2 =>
        cases r2 with
        | nil =>
          rw [if_pos hc, hsp]
          exact ⟨_, rfl⟩
        | cons d r3 =>
          have := splitEqAux_length (pyStrip l).data []
          rw [show splitEqAux [] (pyStrip l).data = pySplitEqOnce (pyStrip l) from rfl,
            hsp] at this
          simp at this
  · rw [if_neg hc]
    exact ⟨info, rfl⟩

theorem read_info_foldl_error :
    ∀ (lines : List String) (acc : List (String × String)),
      (∃ l ∈ lines, badLine l) →
      List.foldlM read_info_line acc lines = Except.error PyExc.valueError := by
  intro lines
  induction lines with
  | nil =>
    intro acc h
    simp at h
  | cons l ls ih =>
    intro acc h
    by_cases hbad : badLine l
    · show (read_info_line acc l >>= fun b => List.foldlM read_info_line b ls) =
        Except.error PyExc.valueError
      rw [read_info_line_bad l hbad acc]
      rfl
    · obtain ⟨info', hgood⟩ := read_info_line_good l hbad acc
      show (read_info_line acc l >>= fun b => List.foldlM read_info_line b ls) =
        Except.error PyExc.valueError
      rw [hgood]
      have hnext : ∃ l' ∈ ls, badLine l' := by
        rcases h with ⟨l', hl', hbl⟩
        rcases List.mem_cons.mp hl' with rfl | hmem
        · exact absurd hbl hbad
        · exact ⟨l', hmem, hbl⟩
      show List.foldlM read_info_line info' ls = Except.error PyExc.valueError
      exact ih info' hnext

/-- C10: when any line of the config file is, after stripping, non-empty,
not a `#`-comment, and contains no `=` (its `split('=', 1)` yields a
single piece), `read_info` raises `ValueError` instead of returning: no
dictionary — not even a partial one built from earlier well-formed
lines — reaches the caller, even when the required `IP` and `password`
keys are present on other lines. -/
theorem read_info_raises_on_malformed_line :
    ∀ (lines : List String),
      (∃ l ∈ lines, pyStrip l ≠ "" ∧ pyStartsWith (pyStrip l) "#" = false ∧
        (pySplitEqOnce (pyStrip l)).length = 1) →
      read_info lines = Except.error PyExc.valueError := by
  intro lines h
  exact read_info_foldl_error lines [] h

/-- Witness for C10: the second line has no `=`, yet both required keys
appear on well-formed lines; `read_info` still raises `ValueError`. -/
theorem read_info_raises_on_malformed_line_witness :
    (∃ l ∈ ["IP=1.2.3.4", "oops", "password=x"], pyStrip l ≠ "" ∧
      pyStartsWith (pyStrip l) "#" = false ∧ (pySplitEqOnce (pyStrip l)).length = 1) ∧
    read_info ["IP=1.2.3.4", "oops", "password=x"] = Except.error PyExc.valueError :=
  ⟨by decide, read_info_raises_on_malformed_line ["IP=1.2.3.4", "oops", "password=x"]
    (by decide)⟩

/-- Witness for C1 at a concrete run. -/
theorem add_and_download_never_raise_witness :
    ∃ b w' t, add_name {} "w1" emptyWorld = (Except.ok b, w', t) :=
  add_and_download_never_raise.1 {} "w1" emptyWorld

/-- Witness for C2 at a concrete appearance time (second 3 of a 15-second
window). -/
theorem verify_download_true_iff_witness :
    verify_download {} (some 3) = true ↔
      ∃ k, (some 3 : Option Nat) = some k ∧ k < ({} : Config).download_wait :=
  verify_download_true_iff {} (some 3)

/-- Witness for C7 at a concrete oracle. -/
theorem login_short_circuits_when_authenticated_witness :
    login {} { responses := [Except.ok (Val.elem 5)], fileAppearsAt := noFiles } =
      (.ok true, { responses := [], fileAppearsAt := noFiles },
       [.waitCall markerXPath 2, .log "Already logged in"]) ∧
    ∀ e ∈ (login {} { responses := [Except.ok (Val.elem 5)], fileAppearsAt := noFiles }).2.2,
      (∀ u, e ≠ .navigate u) ∧ (∀ p s, e ≠ .sendKeys p s) ∧ (∀ p, e ≠ .clearField p) :=
  login_short_circuits_when_authenticated {} 5 [] noFiles

/-- Witness for C8 at a concrete run. -/
theorem no_crash_after_startup_witness :
    ∃ w' t, main_run {} Mode.noMode (fun _ => none) emptyWorld = (Except.ok (), w', t) :=
  no_crash_after_startup.1 {} Mode.noMode (fun _ => none) emptyWorld
